import Mathlib

/-
Verification of the RobotSim autonomous navigation stack.

The development shallowly embeds the navigation core:
  * `NavigationSystem.ts` — occupancy-grid maintenance, goal/state machine,
    velocity command generation;
  * `ParticleFilter.ts` — Monte-Carlo localizer;
  * `PathPlanner` (RRT) — sampling-based planner over the grid.

JavaScript numbers are modelled as real numbers (ℝ); grid indices as ℤ;
cell probabilities as ℚ.  Randomness (`Math.random`) is modelled by
passing the drawn values explicitly as inputs, so theorems quantify over
all possible draws.  Wall-clock time (`Date.now`) is outside the
embedding: the planner's timeout branch is absorbed into iteration
exhaustion, and the `lastUpdated` cell timestamp is omitted.
-/

namespace RobotSim

/-- A planar pose: position in meters, heading in radians.
(`Pose` in `navigation/types.ts`.) -/
structure Pose where
  x : ℝ
  y : ℝ
  theta : ℝ

/-- A 3D vector at the world boundary (`TVector` in `robot/types.ts`). -/
structure TVector where
  x : ℝ
  y : ℝ
  z : ℝ

/-- One grid cell (`GridCell` in `navigation/types.ts`).  The
`lastUpdated` wall-clock field is outside the embedding; `cost` is unused
by the verified code paths and omitted. -/
structure GridCell where
  occupied : Bool
  probability : ℚ
deriving DecidableEq

/-- The occupancy grid (`OccupancyGrid` in `navigation/types.ts`).  The
2D cell array is embedded as a function from (row, col); reads are always
bounds-checked against `width`/`height` in the source before access. -/
@[ext]
structure OccupancyGrid where
  cells : ℤ → ℤ → GridCell
  resolution : ℝ
  width : ℤ
  height : ℤ
  originX : ℝ
  originY : ℝ

/-- `NavigationSystem.worldToGrid`: world coordinates to (row, col). -/
noncomputable def worldToGrid (m : OccupancyGrid) (x y : ℝ) : ℤ × ℤ :=
  (⌊(y - m.originY) / m.resolution⌋, ⌊(x - m.originX) / m.resolution⌋)

/-- `NavigationSystem.gridToWorld`: (row, col) to world coordinates. -/
noncomputable def gridToWorld (m : OccupancyGrid) (row col : ℤ) : ℝ × ℝ :=
  (col * m.resolution + m.originX, row * m.resolution + m.originY)

/-- The empty 30 m × 30 m map built by `createEmptyMap` at resolution
0.05 m/cell: 600 × 600 cells (`⌈30 / 0.05⌉ = 600`), origin `(−15, −15)`,
every cell unknown (`probability = 0.5`, `occupied = false`). -/
noncomputable def defaultMap : OccupancyGrid where
  cells := fun _ _ => { occupied := false, probability := 1/2 }
  resolution := 0.05
  width := 600
  height := 600
  originX := -15
  originY := -15

/-- Euclidean distance between two planar points: the `distanceBetween`
helper of both `NavigationSystem.ts` and the path planner, and the
inlined distance computations of `isGoalReached` / `getVelocityCommand`. -/
noncomputable def dist2 (a b : ℝ × ℝ) : ℝ :=
  Real.sqrt ((a.1 - b.1) * (a.1 - b.1) + (a.2 - b.2) * (a.2 - b.2))

/-- Closed form of the first `while` loop of
`NavigationSystem.normalizeAngle`: subtract 2π until the angle is ≤ π. -/
noncomputable def normalizeDown (angle : ℝ) : ℝ :=
  angle - 2 * Real.pi * (max 0 ⌈(angle - Real.pi) / (2 * Real.pi)⌉ : ℤ)

/-- Closed form of the second `while` loop of
`NavigationSystem.normalizeAngle`: add 2π until the angle is ≥ −π. -/
noncomputable def normalizeUp (angle : ℝ) : ℝ :=
  angle + 2 * Real.pi * (max 0 ⌈(-Real.pi - angle) / (2 * Real.pi)⌉ : ℤ)

/-- `NavigationSystem.normalizeAngle`: both `while` loops in sequence. -/
noncomputable def normalizeAngle (angle : ℝ) : ℝ :=
  normalizeUp (normalizeDown angle)

theorem normalizeDown_zero : normalizeDown 0 = 0 := by
  unfold normalizeDown
  have h1 : (0 - Real.pi) / (2 * Real.pi) = -(1 / 2 : ℝ) := by
    rw [zero_sub, neg_div, neg_inj, div_eq_div_iff (by positivity) (by norm_num)]
    ring
  rw [h1]
  have h2 : ⌈(-(1 / 2) : ℝ)⌉ = 0 := by
    rw [Int.ceil_eq_zero_iff]
    constructor <;> norm_num
  rw [h2]
  simp

theorem normalizeUp_zero : normalizeUp 0 = 0 := by
  unfold normalizeUp
  have h1 : (-Real.pi - 0) / (2 * Real.pi) = -(1 / 2 : ℝ) := by
    rw [sub_zero, neg_div, neg_inj, div_eq_div_iff (by positivity) (by norm_num)]
    ring
  rw [h1]
  have h2 : ⌈(-(1 / 2) : ℝ)⌉ = 0 := by
    rw [Int.ceil_eq_zero_iff]
    constructor <;> norm_num
  rw [h2]
  simp

theorem normalizeAngle_zero : normalizeAngle 0 = 0 := by
  rw [normalizeAngle, normalizeDown_zero, normalizeUp_zero]

/-- `NavigationStatus` in `navigation/types.ts`. -/
inductive NavigationStatus where
  | idle
  | planning
  | moving
  | blocked
  | goal_reached
  | failed
deriving DecidableEq

/-- Goal tolerances (`NavigationGoal.tolerance`). -/
structure GoalTolerance where
  position : ℝ
  orientation : ℝ

/-- `NavigationGoal` in `navigation/types.ts`.  The tolerance is optional
because `isGoalReached` reads it with `goal.tolerance?.position ?? ...`. -/
structure NavigationGoal where
  pose : Pose
  tolerance : Option GoalTolerance

/-- `NavigationState` in `navigation/types.ts`. -/
structure NavigationState where
  currentPose : Pose
  currentMap : OccupancyGrid
  isNavigating : Bool
  currentGoal : Option NavigationGoal
  path : Option (List Pose)
  status : NavigationStatus
  lastError : Option String

/-- `NavigationSystem.isGoalReached`: both the positional distance and
the canonicalized absolute heading difference must be strictly below the
goal tolerances (defaults 0.1 m / 0.1 rad). -/
noncomputable def isGoalReached (currentPose : Pose) (goal : NavigationGoal) : Bool :=
  let distanceToGoal := dist2 (currentPose.x, currentPose.y) (goal.pose.x, goal.pose.y)
  let angleDifference := |normalizeAngle (currentPose.theta - goal.pose.theta)|
  let posTol : ℝ := match goal.tolerance with
    | some t => t.position
    | none => 0.1
  let angTol : ℝ := match goal.tolerance with
    | some t => t.orientation
    | none => 0.1
  decide (distanceToGoal < posTol) && decide (angleDifference < angTol)

/-- `NavigationSystem.setGoal`.  The planner is randomized, so its result
is passed in as `plannedPath` (the source calls
`pathPlanner.planPath(currentPose, goal.pose, map)` at that point).
`updateNavigationStatus(st)` sets `status := st` and `lastError := none`
when no error message is given. -/
def setGoal (s : NavigationState) (goal : NavigationGoal)
    (plannedPath : List Pose) : NavigationState :=
  let s1 : NavigationState :=
    { s with status := .planning, lastError := none,
             currentGoal := some goal, isNavigating := true }
  match plannedPath with
  | [] => { s1 with status := .failed, lastError := some "No path found to goal" }
  | p => { s1 with path := some p }

/-- The goal-tracking step of `NavigationSystem.updatePose`.  The
particle-filter prediction/update and visualization calls are abstracted:
`estimatedPose` is the pose the filter returns, which the source stores
into `currentPose` before the goal check. -/
noncomputable def updatePose (s : NavigationState) (estimatedPose : Pose) : NavigationState :=
  let s1 : NavigationState := { s with currentPose := estimatedPose }
  match s1.currentGoal with
  | some goal =>
      if s1.isNavigating && isGoalReached estimatedPose goal then
        { s1 with isNavigating := false, path := none }
      else s1
  | none => s1

/-- The origin pose, used as a concrete evaluation point. -/
noncomputable def pose0 : Pose := { x := 0, y := 0, theta := 0 }

/-- A goal at the origin with default tolerances. -/
noncomputable def goal0 : NavigationGoal := { pose := pose0, tolerance := none }

/-- An idle navigation state over the default map. -/
noncomputable def state0 : NavigationState :=
  { currentPose := pose0, currentMap := defaultMap, isNavigating := false,
    currentGoal := none, path := none, status := .idle, lastError := none }

theorem isGoalReached_pose0 : isGoalReached pose0 goal0 = true := by
  unfold isGoalReached goal0 pose0
  have hd : dist2 (0, 0) (0, 0) = 0 := by
    unfold dist2
    simp
  have ha : |normalizeAngle ((0 : ℝ) - 0)| = 0 := by
    rw [sub_zero, normalizeAngle_zero, abs_zero]
  simp only [hd, ha]
  norm_num

/-- C1 (amended): `set_goal` first sets status to `planning` (clearing
`last_error`) and sets `is_navigating := true`, then invokes the planner
from the current pose.  If the planner returns an empty path, the final
state has status `failed` with `last_error = "No path found to goal"`,
but `is_navigating` REMAINS `true` (the source sets it to `true` before
planning and never resets it on failure).  If the planner returns a
non-empty path, the final state stores that path and has
`is_navigating = true`, but its status REMAINS `planning` (the source
never sets status `moving`). -/
theorem setGoal_spec (s : NavigationState) (goal : NavigationGoal)
    (plannedPath : List Pose) :
    (plannedPath = [] →
      (setGoal s goal plannedPath).status = .failed ∧
      (setGoal s goal plannedPath).lastError = some "No path found to goal" ∧
      (setGoal s goal plannedPath).isNavigating = true) ∧
    (plannedPath ≠ [] →
      (setGoal s goal plannedPath).path = some plannedPath ∧
      (setGoal s goal plannedPath).isNavigating = true ∧
      (setGoal s goal plannedPath).status = .planning) := by
  constructor
  · intro h
    subst h
    simp [setGoal]
  · intro h
    match plannedPath, h with
    | p :: ps, _ => simp [setGoal]

/-- C1 witness: both branches of `setGoal_spec` evaluated at the idle
state, the origin goal, and the planner results `[]` and `[pose0]`. -/
theorem setGoal_spec_witness :
    ((setGoal state0 goal0 []).status = .failed ∧
      (setGoal state0 goal0 []).lastError = some "No path found to goal" ∧
      (setGoal state0 goal0 []).isNavigating = true) ∧
    ((setGoal state0 goal0 [pose0]).path = some [pose0] ∧
      (setGoal state0 goal0 [pose0]).isNavigating = true ∧
      (setGoal state0 goal0 [pose0]).status = .planning) :=
  ⟨(setGoal_spec state0 goal0 []).1 rfl,
   (setGoal_spec state0 goal0 [pose0]).2 (by simp)⟩

/-- C1 counterexample: at the concrete input (idle state, origin goal,
empty planner result) the final state has `is_navigating = true`, not
`false` as the claim states; and after a successful `set_goal` the status
is `planning`, not `moving`. -/
theorem setGoal_claim_counterexample :
    (setGoal state0 goal0 []).isNavigating = true ∧
    (setGoal state0 goal0 [pose0]).status = NavigationStatus.planning ∧
    NavigationStatus.planning ≠ NavigationStatus.moving := by
  refine ⟨?_, ?_, by decide⟩ <;> simp [setGoal, state0, goal0]

/-- C6 (amended): in `update_pose`, if the system is navigating and the
estimated pose is within the goal tolerances, then the path is cleared
and `is_navigating` is set to `false`, but the status is left UNCHANGED
(the source never assigns status `goal_reached`). -/
theorem updatePose_goalReached (s : NavigationState) (est : Pose)
    (goal : NavigationGoal) (hnav : s.isNavigating = true)
    (hgoal : s.currentGoal = some goal)
    (hreached : isGoalReached est goal = true) :
    (updatePose s est).path = none ∧
    (updatePose s est).isNavigating = false ∧
    (updatePose s est).status = s.status := by
  unfold updatePose
  simp only [hgoal, hnav, hreached]
  simp

/-- A navigating state at the origin whose goal is already satisfied,
with status `planning` (the status a state has right after `set_goal`). -/
noncomputable def state6 : NavigationState :=
  { state0 with isNavigating := true, currentGoal := some goal0,
                path := some [pose0], status := .planning }

/-- C6 witness: `updatePose_goalReached` evaluated at the concrete
navigating state `state6` with the already-reached origin goal. -/
theorem updatePose_goalReached_witness :
    (updatePose state6 pose0).path = none ∧
    (updatePose state6 pose0).isNavigating = false ∧
    (updatePose state6 pose0).status = state6.status :=
  updatePose_goalReached state6 pose0 goal0 rfl rfl isGoalReached_pose0

/-- C6 counterexample: at the concrete navigating state `state6` whose
goal is reached, `update_pose` clears the path and stops navigating but
leaves the status at `planning`; it is not set to `goal_reached` as the
claim states. -/
theorem updatePose_claim_counterexample :
    (updatePose state6 pose0).isNavigating = false ∧
    (updatePose state6 pose0).path = none ∧
    (updatePose state6 pose0).status = NavigationStatus.planning ∧
    NavigationStatus.planning ≠ NavigationStatus.goal_reached := by
  have h := isGoalReached_pose0
  refine ⟨?_, ?_, ?_, by decide⟩ <;>
    simp [updatePose, state6, state0, h]

/-- A weighted particle (`Particle` in `ParticleFilter.ts`). -/
structure Particle where
  pose : Pose
  weight : ℝ

/-- A range measurement as consumed by `ParticleFilter.update`:
`{ point: TVector; distance: number }`. -/
structure Measurement where
  point : TVector
  distance : ℝ

/-- `ParticleFilter.measurementNoise` (σ = 0.1 m). -/
noncomputable def measurementNoise : ℝ := 0.1

/-- `ParticleFilter.expectedMeasurement`: distance from the particle to
the measured point, using the world-z / planar-y swap. -/
noncomputable def expectedMeasurement (pose : Pose) (point : TVector) : ℝ :=
  Real.sqrt ((point.x - pose.x) * (point.x - pose.x) +
    (point.z - pose.y) * (point.z - pose.y))

/-- `ParticleFilter.gaussianProbability`. -/
noncomputable def gaussianProbability (error sigma : ℝ) : ℝ :=
  Real.exp (-(error * error) / (2 * sigma * sigma)) /
    Real.sqrt (2 * Real.pi * sigma * sigma)

/-- Sum of the particle weights (the `reduce` of `normalizeWeights`). -/
def weightSum (particles : List Particle) : ℝ :=
  (particles.map Particle.weight).sum

/-- The per-particle weight multiplication of `ParticleFilter.update`:
`weight ← weight · exp(−Σ gaussianProbability(|expected − measured|, σ))`. -/
noncomputable def updateWeights (particles : List Particle)
    (measurements : List Measurement) : List Particle :=
  particles.map fun p =>
    let totalError := (measurements.map fun m =>
      gaussianProbability |expectedMeasurement p.pose m.point - m.distance|
        measurementNoise).sum
    { p with weight := p.weight * Real.exp (-totalError) }

/-- `ParticleFilter.normalizeWeights`: divide every weight by the total.
The source has no zero-total guard; division by a zero total is the
JavaScript `w / 0` (yielding `NaN`/`Infinity`), embedded by the Lean
convention `x / 0 = 0`. -/
noncomputable def normalizeWeights (particles : List Particle) : List Particle :=
  particles.map fun p => { p with weight := p.weight / weightSum particles }

/-- `ParticleFilter.getEffectiveParticleCount`: `1 / Σ w²`. -/
noncomputable def getEffectiveParticleCount (particles : List Particle) : ℝ :=
  1 / (particles.map fun p => p.weight * p.weight).sum

/-- The cumulative-weight list built by the `reduce` in
`ParticleFilter.resample` (running sum starting at `acc`, called with 0):
`[w₁, w₁+w₂, …]`. -/
def cumulativeWeights (acc : ℝ) : List Particle → List ℝ
  | [] => []
  | p :: ps => (acc + p.weight) :: cumulativeWeights (acc + p.weight) ps

/-- JavaScript `Array.findIndex`, with the not-found result −1 embedded
as `none`. -/
def findIndex (p : α → Bool) : List α → Option ℕ
  | [] => none
  | a :: l => if p a then some 0 else (findIndex p l).map (· + 1)

/-- The body of the resampling `for` loop of `ParticleFilter.resample`,
iterated over the list of loop indices.  Each index draws `draws i`
uniform in [0, 1), looks up the first cumulative weight exceeding it and
clones that particle's pose with weight `1/N`.  A failed index lookup or
particle access (`particles[-1]` in the source, a crash) is `none`. -/
noncomputable def resampleGo (particles : List Particle) (cum : List ℝ)
    (numParticles : ℕ) (draws : ℕ → ℝ) : List ℕ → Option (List Particle)
  | [] => some []
  | i :: is =>
    match findIndex (fun w => decide (draws i < w)) cum with
    | none => none
    | some idx =>
      match particles.get? idx with
      | none => none
      | some p =>
        (resampleGo particles cum numParticles draws is).map
          (fun rest => { pose := p.pose, weight := 1 / (numParticles : ℝ) } :: rest)

/-- `ParticleFilter.resample`. -/
noncomputable def resample (particles : List Particle) (numParticles : ℕ)
    (draws : ℕ → ℝ) : Option (List Particle) :=
  resampleGo particles (cumulativeWeights 0 particles) numParticles draws
    (List.range numParticles)

/-- `ParticleFilter.update`: weight update, normalization, and systematic
resampling when the effective particle count drops below N/2.  The N
uniform draws of the resampling loop are passed in as `draws`. -/
noncomputable def filterUpdate (particles : List Particle) (numParticles : ℕ)
    (measurements : List Measurement) (draws : ℕ → ℝ) : Option (List Particle) :=
  let normalized := normalizeWeights (updateWeights particles measurements)
  if getEffectiveParticleCount normalized < (numParticles : ℝ) / 2 then
    resample normalized numParticles draws
  else
    some normalized

theorem list_sum_div (l : List ℝ) (t : ℝ) : (l.map (· / t)).sum = l.sum / t := by
  induction l with
  | nil => simp
  | cons a l ih => simp [ih, add_div]

theorem weightSum_pos (ps : List Particle) (hne : ps ≠ [])
    (hpos : ∀ p ∈ ps, 0 < p.weight) : 0 < weightSum ps := by
  apply List.sum_pos
  · intro a ha
    rcases List.mem_map.mp ha with ⟨p, hp, rfl⟩
    exact hpos p hp
  · simpa using hne

theorem weightSum_normalizeWeights (ps : List Particle) (hne : ps ≠ [])
    (hpos : ∀ p ∈ ps, 0 < p.weight) :
    weightSum (normalizeWeights ps) = 1 := by
  have ht : 0 < weightSum ps := weightSum_pos ps hne hpos
  have key : weightSum (normalizeWeights ps) = weightSum ps / weightSum ps := by
    unfold weightSum normalizeWeights
    calc ((ps.map fun p =>
            { p with weight := p.weight / (ps.map Particle.weight).sum }).map
              Particle.weight).sum
        = (ps.map fun p => p.weight / (ps.map Particle.weight).sum).sum := by
          rw [List.map_map]
          rfl
      _ = ((ps.map Particle.weight).map (· / (ps.map Particle.weight).sum)).sum := by
          rw [List.map_map]
          rfl
      _ = (ps.map Particle.weight).sum / (ps.map Particle.weight).sum :=
          list_sum_div _ _
  rw [key]
  exact div_self (ne_of_gt ht)

theorem normalizeWeights_pos (ps : List Particle) (hne : ps ≠ [])
    (hpos : ∀ p ∈ ps, 0 < p.weight) :
    ∀ q ∈ normalizeWeights ps, 0 < q.weight := by
  have ht : 0 < weightSum ps := weightSum_pos ps hne hpos
  intro q hq
  rcases List.mem_map.mp hq with ⟨p, hp, rfl⟩
  exact div_pos (hpos p hp) ht

theorem updateWeights_pos (ps : List Particle) (ms : List Measurement)
    (hpos : ∀ p ∈ ps, 0 < p.weight) :
    ∀ q ∈ updateWeights ps ms, 0 < q.weight := by
  intro q hq
  rcases List.mem_map.mp hq with ⟨p, hp, rfl⟩
  exact mul_pos (hpos p hp) (Real.exp_pos _)

theorem updateWeights_ne_nil (ps : List Particle) (ms : List Measurement)
    (hne : ps ≠ []) : updateWeights ps ms ≠ [] := by
  simpa [updateWeights] using hne

theorem updateWeights_length (ps : List Particle) (ms : List Measurement) :
    (updateWeights ps ms).length = ps.length := by
  simp [updateWeights]

theorem normalizeWeights_ne_nil (ps : List Particle) (hne : ps ≠ []) :
    normalizeWeights ps ≠ [] := by
  simpa [normalizeWeights] using hne

theorem normalizeWeights_length (ps : List Particle) :
    (normalizeWeights ps).length = ps.length := by
  simp [normalizeWeights]

theorem cumulativeWeights_length (a : ℝ) (ps : List Particle) :
    (cumulativeWeights a ps).length = ps.length := by
  induction ps generalizing a with
  | nil => rfl
  | cons p ps ih => simp [cumulativeWeights, ih]

/-- The cumulative-weight list contains an element exceeding `r`
whenever `r < acc + Σ weights` (the last element is that running sum). -/
theorem cumulativeWeights_exists_gt (r : ℝ) (ps : List Particle) (hne : ps ≠ []) :
    ∀ a : ℝ, r < a + weightSum ps → ∃ w ∈ cumulativeWeights a ps, r < w := by
  induction ps with
  | nil => exact absurd rfl hne
  | cons p ps ih =>
    intro a ha
    cases ps with
    | nil =>
      refine ⟨a + p.weight, by simp [cumulativeWeights], ?_⟩
      simpa [weightSum] using ha
    | cons q qs =>
      have ha' : r < (a + p.weight) + weightSum (q :: qs) := by
        have : weightSum (p :: q :: qs) = p.weight + weightSum (q :: qs) := by
          simp [weightSum]
        rw [this] at ha
        linarith
      rcases ih (by simp) (a + p.weight) ha' with ⟨w, hw, hrw⟩
      refine ⟨w, ?_, hrw⟩
      rw [cumulativeWeights]
      exact List.mem_cons_of_mem _ hw

theorem findIndex_lt_length {p : α → Bool} :
    ∀ {l : List α} {i : ℕ}, findIndex p l = some i → i < l.length := by
  intro l
  induction l with
  | nil => intro i h; simp [findIndex] at h
  | cons a l ih =>
    intro i h
    simp only [findIndex] at h
    by_cases hpa : p a
    · rw [if_pos hpa] at h
      injection h with h
      subst h
      simp
    · rw [if_neg hpa] at h
      rcases Option.map_eq_some'.mp h with ⟨j, hj, hji⟩
      subst hji
      have := ih hj
      simp only [List.length_cons]
      omega

theorem findIndex_isSome {p : α → Bool} :
    ∀ {l : List α}, (∃ x ∈ l, p x = true) → ∃ i, findIndex p l = some i := by
  intro l
  induction l with
  | nil => rintro ⟨x, hx, _⟩; simp at hx
  | cons a l ih =>
    rintro ⟨x, hx, hpx⟩
    by_cases hpa : p a
    · exact ⟨0, by simp [findIndex, hpa]⟩
    · rcases List.mem_cons.mp hx with rfl | hxl
      · exact absurd hpx (by simp [hpa])
      · rcases ih ⟨x, hxl, hpx⟩ with ⟨i, hi⟩
        exact ⟨i + 1, by simp [findIndex, hpa, hi]⟩

theorem resampleGo_spec (particles : List Particle) (cum : List ℝ) (n : ℕ)
    (draws : ℕ → ℝ)
    (hfind : ∀ i : ℕ, ∃ idx, findIndex (fun w => decide (draws i < w)) cum = some idx ∧
      idx < particles.length) :
    ∀ idxs : List ℕ, ∃ l, resampleGo particles cum n draws idxs = some l ∧
      l.length = idxs.length ∧
      ∀ q ∈ l, (∃ p ∈ particles, q.pose = p.pose) ∧ q.weight = 1 / (n : ℝ) := by
  intro idxs
  induction idxs with
  | nil => exact ⟨[], rfl, rfl, by simp⟩
  | cons i is ih =>
    rcases hfind i with ⟨idx, hidx, hlt⟩
    have hget : particles.get? idx = some (particles.get ⟨idx, hlt⟩) :=
      List.get?_eq_get hlt
    rcases ih with ⟨l, hl, hlen, hq⟩
    refine ⟨{ pose := (particles.get ⟨idx, hlt⟩).pose, weight := 1 / (n : ℝ) } :: l, ?_, ?_, ?_⟩
    · simp only [resampleGo, hidx, hget, hl, Option.map_some']
    · simp [hlen]
    · intro q hqmem
      rcases List.mem_cons.mp hqmem with rfl | hql
      · exact ⟨⟨particles.get ⟨idx, hlt⟩, List.get_mem _ _ _, rfl⟩, rfl⟩
      · exact hq q hql

/-- Core success property of `resample` for particles with total weight
1: every uniform draw below 1 finds a cumulative weight exceeding it, so
the loop completes, producing `numParticles` clones of existing poses. -/
theorem resample_success (ps : List Particle) (n : ℕ) (draws : ℕ → ℝ)
    (hne : ps ≠ []) (hsum : weightSum ps = 1) (hdraws : ∀ i, draws i < 1) :
    ∃ l, resample ps n draws = some l ∧ l.length = n ∧
      ∀ q ∈ l, (∃ p ∈ ps, q.pose = p.pose) ∧ q.weight = 1 / (n : ℝ) := by
  have hfind : ∀ i : ℕ, ∃ idx,
      findIndex (fun w => decide (draws i < w)) (cumulativeWeights 0 ps) = some idx ∧
      idx < ps.length := by
    intro i
    have hex : ∃ w ∈ cumulativeWeights 0 ps, draws i < w := by
      apply cumulativeWeights_exists_gt (draws i) ps hne 0
      rw [zero_add, hsum]
      exact hdraws i
    rcases hex with ⟨w, hw, hrw⟩
    rcases findIndex_isSome (p := fun w => decide (draws i < w))
      (l := cumulativeWeights 0 ps) ⟨w, hw, by simp [hrw]⟩ with ⟨idx, hidx⟩
    refine ⟨idx, hidx, ?_⟩
    have := findIndex_lt_length hidx
    rwa [cumulativeWeights_length] at this
  rcases resampleGo_spec ps (cumulativeWeights 0 ps) n draws hfind (List.range n) with
    ⟨l, hl, hlen, hq⟩
  exact ⟨l, hl, by simpa using hlen, hq⟩

theorem weightSum_const (l : List Particle) (c : ℝ)
    (h : ∀ q ∈ l, q.weight = c) : weightSum l = l.length * c := by
  induction l with
  | nil => simp [weightSum]
  | cons p l ih =>
    have hp : p.weight = c := h p (by simp)
    have hrest : weightSum l = l.length * c := ih fun q hq => h q (by simp [hq])
    simp only [weightSum, List.map_cons, List.sum_cons] at *
    rw [hp, hrest]
    simp only [List.length_cons, Nat.cast_add, Nat.cast_one]
    ring

/-- C5: for every `resample` invocation on normalized weights
(`Σ w = 1`, all weights ≥ 0) with `N` particles and all uniform draws in
[0, 1), the cumulative-weight lookup of every draw succeeds with an index
inside the particle array, resampling returns particles whose poses are
clones of existing particles' poses, and the particle count is
unchanged. -/
theorem resample_spec (ps : List Particle) (n : ℕ) (draws : ℕ → ℝ)
    (hlen : ps.length = n) (hne : ps ≠ [])
    (hw0 : ∀ p ∈ ps, 0 ≤ p.weight) (hsum : weightSum ps = 1)
    (hdraws : ∀ i, 0 ≤ draws i ∧ draws i < 1) :
    (∀ i : ℕ, ∃ idx,
      findIndex (fun w => decide (draws i < w)) (cumulativeWeights 0 ps) = some idx ∧
      idx < ps.length) ∧
    ∃ l, resample ps n draws = some l ∧ l.length = ps.length ∧
      ∀ q ∈ l, ∃ p ∈ ps, q.pose = p.pose := by
  rcases resample_success ps n draws hne hsum (fun i => (hdraws i).2) with
    ⟨l, hl, hlen', hq⟩
  constructor
  · intro i
    have hex : ∃ w ∈ cumulativeWeights 0 ps, draws i < w := by
      apply cumulativeWeights_exists_gt (draws i) ps hne 0
      rw [zero_add, hsum]
      exact (hdraws i).2
    rcases hex with ⟨w, hw, hrw⟩
    rcases findIndex_isSome (p := fun w => decide (draws i < w))
      (l := cumulativeWeights 0 ps) ⟨w, hw, by simp [hrw]⟩ with ⟨idx, hidx⟩
    refine ⟨idx, hidx, ?_⟩
    have := findIndex_lt_length hidx
    rwa [cumulativeWeights_length] at this
  · exact ⟨l, hl, by rw [hlen', hlen], fun q hqm => (hq q hqm).1⟩

/-- A single unit-weight particle at the origin. -/
noncomputable def unitParticle : Particle := { pose := pose0, weight := 1 }

/-- C5 witness: `resample_spec` at one particle of weight 1 (a
normalized state) with all draws 0. -/
theorem resample_spec_witness :
    (∀ i : ℕ, ∃ idx,
      findIndex (fun w => decide ((fun _ : ℕ => (0 : ℝ)) i < w))
        (cumulativeWeights 0 [unitParticle]) = some idx ∧
      idx < [unitParticle].length) ∧
    ∃ l, resample [unitParticle] 1 (fun _ => 0) = some l ∧
      l.length = [unitParticle].length ∧
      ∀ q ∈ l, ∃ p ∈ [unitParticle], q.pose = p.pose :=
  resample_spec [unitParticle] 1 (fun _ => 0) rfl (by simp)
    (by intro p hp; simp at hp; simp [hp, unitParticle])
    (by simp [weightSum, unitParticle])
    (by intro i; norm_num)

/-- C3: after every call of the particle filter's `update` on a
reachable particle state (non-empty, positive weights, `N` particles)
with any measurement list and any resampling draws in [0, 1), the new
particle weights sum to exactly 1 (hence lie in [1−ε, 1+ε] for every
ε ≥ 0). -/
theorem filterUpdate_weight_sum (ps : List Particle) (n : ℕ)
    (ms : List Measurement) (draws : ℕ → ℝ) (hne : ps ≠ [])
    (hpos : ∀ p ∈ ps, 0 < p.weight) (hlen : ps.length = n)
    (hdraws : ∀ i, 0 ≤ draws i ∧ draws i < 1) :
    ∃ l, filterUpdate ps n ms draws = some l ∧ weightSum l = 1 := by
  have hune := updateWeights_ne_nil ps ms hne
  have hupos := updateWeights_pos ps ms hpos
  have hnne := normalizeWeights_ne_nil _ hune
  have hnsum := weightSum_normalizeWeights _ hune hupos
  have hn0 : n ≠ 0 := by
    rw [← hlen]
    simpa using hne
  unfold filterUpdate
  by_cases hc : getEffectiveParticleCount
      (normalizeWeights (updateWeights ps ms)) < (n : ℝ) / 2
  · rcases resample_success _ n draws hnne hnsum (fun i => (hdraws i).2) with
      ⟨l, hl, hlen', hq⟩
    refine ⟨l, by rw [if_pos hc]; exact hl, ?_⟩
    rw [weightSum_const l (1 / (n : ℝ)) (fun q hqm => (hq q hqm).2), hlen']
    field_simp
  · exact ⟨_, by rw [if_neg hc], hnsum⟩

/-- C3 witness: `filterUpdate_weight_sum` at one unit-weight particle,
no measurements, all draws 0. -/
theorem filterUpdate_weight_sum_witness :
    ∃ l, filterUpdate [unitParticle] 1 [] (fun _ => 0) = some l ∧ weightSum l = 1 :=
  filterUpdate_weight_sum [unitParticle] 1 [] (fun _ => 0) (by simp)
    (by intro p hp; simp at hp; simp [hp, unitParticle]) rfl
    (by intro i; norm_num)

/-- A pair of zero-weight particles: the all-weights-zero degenerate
state the spec's `NumericalDegeneracy` recovery is about (reachable in
the floating-point implementation through underflow of `exp(−Σ)`). -/
noncomputable def zeroParticles : List Particle :=
  [{ pose := pose0, weight := 0 }, { pose := pose0, weight := 0 }]

/-- C4: the claim fails on the code.  `normalizeWeights` has no zero-sum
guard: with all weights zero it divides each weight by the zero total
(JavaScript `0 / 0 = NaN`; embedded as `0 / 0 = 0`), so no weight is
reset to the uniform `1/N = 1/2` — the weights are NOT re-initialized to
uniform as the claim and the spec's NumericalDegeneracy policy state. -/
theorem normalizeWeights_zero_total :
    weightSum zeroParticles = 0 ∧
    normalizeWeights zeroParticles = zeroParticles ∧
    ∀ p ∈ normalizeWeights zeroParticles, p.weight ≠ 1 / 2 := by
  have hzero : weightSum zeroParticles = 0 := by simp [weightSum, zeroParticles]
  refine ⟨hzero, ?_, ?_⟩
  · simp [normalizeWeights, hzero, zeroParticles]
  · intro p hp
    simp [normalizeWeights, hzero, zeroParticles] at hp
    rcases hp with rfl | rfl <;> norm_num

/-- A sensor reading as consumed by the navigation system
(`SensorReading` in `sensors/types.ts`; `meshId`/`normal` are unused by
the verified code paths and omitted). -/
structure SensorReading where
  point : TVector
  distance : ℝ
  occupied : Bool

/-- One cell assignment of the `updateMap` integration pass. -/
structure CellWrite where
  row : ℤ
  col : ℤ
  occupied : Bool
  probability : ℚ
deriving DecidableEq

/-- The `while (true)` body of `NavigationSystem.bresenham`, with
explicit fuel.  The classic integer Bresenham walk reaches the target
within `|dx| + |dy| + 1` pushed points, which is the fuel `bresenham`
supplies; the walk is a deterministic function of its endpoints either
way. -/
def bresenhamLoop (x1 y1 sx sy dx dy : ℤ) : ℕ → ℤ → ℤ → ℤ → List (ℤ × ℤ)
  | 0, _, _, _ => []
  | fuel + 1, err, x, y =>
    (x, y) ::
      (if x = x1 ∧ y = y1 then []
       else
         let e2 := 2 * err
         let err1 := if e2 > -dy then err - dy else err
         let x' := if e2 > -dy then x + sx else x
         let err2 := if e2 < dx then err1 + dx else err1
         let y' := if e2 < dx then y + sy else y
         bresenhamLoop x1 y1 sx sy dx dy fuel err2 x' y')

/-- `NavigationSystem.bresenham`: integer line walk from (x0, y0) to
(x1, y1); the source uses it with x = row, y = col. -/
def bresenham (x0 y0 x1 y1 : ℤ) : List (ℤ × ℤ) :=
  let dx := |x1 - x0|
  let dy := |y1 - y0|
  let sx : ℤ := if x0 < x1 then 1 else -1
  let sy : ℤ := if y0 < y1 then 1 else -1
  bresenhamLoop x1 y1 sx sy dx dy (dx + dy + 1).toNat (dx - dy) x0 y0

/-- The cell writes one sensor reading produces in `updateMap`: skip
non-occupied readings and out-of-bounds hit cells; otherwise walk the
Bresenham ray from the robot cell to the hit cell, marking the last
point occupied with probability 0.95 and every other point free with
probability 0.10. -/
noncomputable def readingWrites (m : OccupancyGrid) (pose : Pose)
    (r : SensorReading) : List CellWrite :=
  if !r.occupied then []
  else
    let robotGrid := worldToGrid m pose.x pose.y
    let hitGrid := worldToGrid m r.point.x r.point.y
    if hitGrid.1 < 0 ∨ m.height ≤ hitGrid.1 ∨ hitGrid.2 < 0 ∨ m.width ≤ hitGrid.2 then []
    else
      let points := bresenham robotGrid.1 robotGrid.2 hitGrid.1 hitGrid.2
      points.enum.map fun ip =>
        if ip.1 = points.length - 1 then
          { row := ip.2.1, col := ip.2.2, occupied := true, probability := 0.95 }
        else
          { row := ip.2.1, col := ip.2.2, occupied := false, probability := 0.1 }

/-- Apply one cell write under the bounds check of the `forEach` body of
`updateMap`, accumulating the significant-change flag
(`|p_old − p_new| > 0.3`).  The `lastUpdated` timestamp is outside the
embedding. -/
def applyWrite (height width : ℤ) (st : (ℤ → ℤ → GridCell) × Bool)
    (w : CellWrite) : (ℤ → ℤ → GridCell) × Bool :=
  if 0 ≤ w.row ∧ w.row < height ∧ 0 ≤ w.col ∧ w.col < width then
    ((fun r c => if r = w.row ∧ c = w.col then
        { occupied := w.occupied, probability := w.probability }
      else st.1 r c),
     st.2 || decide ((3 : ℚ) / 10 < |(st.1 w.row w.col).probability - w.probability|))
  else st

/-- The full write sequence of one `updateMap` integration pass, in
reading order. -/
noncomputable def integrationWrites (m : OccupancyGrid) (pose : Pose)
    (readings : List SensorReading) : List CellWrite :=
  (readings.map (readingWrites m pose)).flatten

/-- The cell-update pass of `NavigationSystem.updateMap`: integrate all
readings into the grid (in reading order) and compute the
significant-change flag. -/
noncomputable def integrateReadings (m : OccupancyGrid) (pose : Pose)
    (readings : List SensorReading) : OccupancyGrid × Bool :=
  ({ m with cells := ((integrationWrites m pose readings).foldl
      (applyWrite m.height m.width) (m.cells, false)).1 },
   ((integrationWrites m pose readings).foldl
      (applyWrite m.height m.width) (m.cells, false)).2)

/-- Sampled collision check of one path segment (the inner loops of
`NavigationSystem.checkPathValidity`): sample the segment at spacing
`resolution · 2`; any in-bounds sample on an occupied or
high-probability (> 0.5) cell invalidates it.  For a zero-length
segment `steps = 0` and the JavaScript sample position is `NaN`
(`0/0`), whose bounds checks all fail, so the segment passes
vacuously; the `steps ≤ 0` guard embeds that behavior. -/
noncomputable def segmentValid (m : OccupancyGrid) (a b : Pose) : Bool :=
  let steps : ℤ := ⌈dist2 (a.x, a.y) (b.x, b.y) / (m.resolution * 2)⌉
  if steps ≤ 0 then true
  else
    (List.range (steps.toNat + 1)).all fun s =>
      let t : ℝ := (s : ℝ) / (steps : ℝ)
      let g := worldToGrid m (a.x + (b.x - a.x) * t) (a.y + (b.y - a.y) * t)
      if 0 ≤ g.1 ∧ g.1 < m.height ∧ 0 ≤ g.2 ∧ g.2 < m.width then
        !(m.cells g.1 g.2).occupied && decide ((m.cells g.1 g.2).probability ≤ 1 / 2)
      else true

/-- All consecutive segments of the path pass `segmentValid`. -/
noncomputable def segmentsValid (m : OccupancyGrid) : List Pose → Bool
  | a :: b :: rest => segmentValid m a b && segmentsValid m (b :: rest)
  | _ => true

/-- `NavigationSystem.checkPathValidity`: a path of fewer than two poses
is invalid; otherwise every segment must pass the sampled check. -/
noncomputable def checkPathValidity (m : OccupancyGrid) (path : List Pose) : Bool :=
  if path.length < 2 then false else segmentsValid m path

/-- `NavigationSystem.updateMap`: run the integration pass, then — when
the map changed significantly while navigating toward a goal — validate
the current path against the updated grid and replan if it is invalid.
The randomized replanning result is passed in as `replanned`; an empty
replan stops navigation and clears the path. -/
noncomputable def updateMap (s : NavigationState) (readings : List SensorReading)
    (replanned : List Pose) : NavigationState :=
  let st := integrateReadings s.currentMap s.currentPose readings
  let s1 : NavigationState := { s with currentMap := st.1 }
  match s.currentGoal with
  | some _ =>
      if st.2 && s.isNavigating then
        if checkPathValidity st.1 (s.path.getD []) then s1
        else
          match replanned with
          | [] => { s1 with isNavigating := false, path := none }
          | p => { s1 with path := some p }
      else s1
  | none => s1

/-- The effect of one cell write on the content of a fixed cell (r, c):
an in-bounds write targeting (r, c) overwrites it with a constant cell,
any other write leaves it unchanged. -/
def cellStep (height width r c : ℤ) (v : GridCell) (w : CellWrite) : GridCell :=
  if (0 ≤ w.row ∧ w.row < height ∧ 0 ≤ w.col ∧ w.col < width) ∧ r = w.row ∧ c = w.col then
    { occupied := w.occupied, probability := w.probability }
  else v

theorem applyWrite_fst (height width : ℤ) (cells : ℤ → ℤ → GridCell) (b : Bool)
    (w : CellWrite) (r c : ℤ) :
    (applyWrite height width (cells, b) w).1 r c = cellStep height width r c (cells r c) w := by
  unfold applyWrite cellStep
  by_cases hb : 0 ≤ w.row ∧ w.row < height ∧ 0 ≤ w.col ∧ w.col < width
  · rw [if_pos hb]
    by_cases hrc : r = w.row ∧ c = w.col
    · simp [hb, hrc]
    · simp [hb, hrc]
  · rw [if_neg hb]
    simp [hb]

theorem foldl_applyWrite_fst (height width r c : ℤ) :
    ∀ (W : List CellWrite) (cells : ℤ → ℤ → GridCell) (b : Bool),
      (W.foldl (applyWrite height width) (cells, b)).1 r c
        = W.foldl (cellStep height width r c) (cells r c) := by
  intro W
  induction W with
  | nil => intro cells b; rfl
  | cons w W ih =>
    intro cells b
    rw [List.foldl_cons, List.foldl_cons, ← applyWrite_fst height width cells b w r c]
    exact ih _ _

/-- Every per-cell write sequence is, pointwise, either a constant
function of the initial cell value or the identity; in either case it is
idempotent. -/
theorem cellStep_foldl_const_or_id (height width r c : ℤ) :
    ∀ W : List CellWrite,
      (∀ v v' : GridCell, W.foldl (cellStep height width r c) v
        = W.foldl (cellStep height width r c) v') ∨
      (∀ v : GridCell, W.foldl (cellStep height width r c) v = v) := by
  intro W
  induction W with
  | nil => exact Or.inr fun _ => rfl
  | cons w W ih =>
    by_cases h : (0 ≤ w.row ∧ w.row < height ∧ 0 ≤ w.col ∧ w.col < width) ∧
        r = w.row ∧ c = w.col
    · left
      intro v v'
      have hs : ∀ v : GridCell, cellStep height width r c v w
          = { occupied := w.occupied, probability := w.probability } := by
        intro v
        unfold cellStep
        rw [if_pos h]
      rw [List.foldl_cons, List.foldl_cons, hs, hs]
    · have hs : ∀ v : GridCell, cellStep height width r c v w = v := by
        intro v
        unfold cellStep
        rw [if_neg h]
      rcases ih with hconst | hid
      · left
        intro v v'
        rw [List.foldl_cons, List.foldl_cons, hs, hs]
        exact hconst v v'
      · right
        intro v
        rw [List.foldl_cons, hs]
        exact hid v

theorem cellStep_foldl_idem (height width r c : ℤ) (W : List CellWrite) (v : GridCell) :
    W.foldl (cellStep height width r c) (W.foldl (cellStep height width r c) v)
      = W.foldl (cellStep height width r c) v := by
  rcases cellStep_foldl_const_or_id height width r c W with hconst | hid
  · exact hconst _ _
  · rw [hid, hid]

/-- C10: for every grid, robot pose, and list of readings, applying the
cell-update pass of `updateMap` twice with the same readings yields the
same grid as applying it once.  Every write of the pass overwrites its
target cell with a constant (0.95/occupied at the hit cell, 0.10/free
along the ray), independent of the current cell contents, and the write
sequence depends only on the grid geometry — which the pass preserves —
so a second pass repeats the same overwrites. -/
theorem integrate_idempotent (m : OccupancyGrid) (pose : Pose)
    (readings : List SensorReading) :
    (integrateReadings (integrateReadings m pose readings).1 pose readings).1
      = (integrateReadings m pose readings).1 := by
  refine OccupancyGrid.ext ?_ rfl rfl rfl rfl rfl
  funext r c
  show ((integrationWrites m pose readings).foldl (applyWrite m.height m.width)
      (((integrationWrites m pose readings).foldl (applyWrite m.height m.width)
        (m.cells, false)).1, false)).1 r c
    = ((integrationWrites m pose readings).foldl (applyWrite m.height m.width)
        (m.cells, false)).1 r c
  rw [foldl_applyWrite_fst, foldl_applyWrite_fst]
  exact cellStep_foldl_idem _ _ _ _ _ _

/-- C7 (amended): in `update_map`, when a significant map change
invalidates the current path while navigating with a goal and replanning
returns an empty path, the resulting state has `is_navigating = false`
and the path cleared, but the status is left UNCHANGED (the source never
assigns status `blocked`). -/
theorem updateMap_replanFailed (s : NavigationState) (readings : List SensorReading)
    (goal : NavigationGoal) (replanned : List Pose)
    (hgoal : s.currentGoal = some goal) (hnav : s.isNavigating = true)
    (hsig : (integrateReadings s.currentMap s.currentPose readings).2 = true)
    (hinvalid : checkPathValidity (integrateReadings s.currentMap s.currentPose readings).1
      (s.path.getD []) = false)
    (hreplan : replanned = []) :
    (updateMap s readings replanned).isNavigating = false ∧
    (updateMap s readings replanned).path = none ∧
    (updateMap s readings replanned).status = s.status := by
  subst hreplan
  unfold updateMap
  rw [hgoal]
  simp [hnav, hsig, hinvalid]

/-- A 1 × 2 all-unknown test map at resolution 1 m/cell, origin (0, 0). -/
noncomputable def map7 : OccupancyGrid :=
  { cells := fun _ _ => { occupied := false, probability := 1/2 },
    resolution := 1, width := 2, height := 1, originX := 0, originY := 0 }

/-- The robot pose used with `map7`: cell (0, 0). -/
noncomputable def pose7 : Pose := { x := 0.5, y := 0.5, theta := 0 }

/-- An occupied reading whose hit point (1.5, 0.5) falls into cell (0, 1)
of `map7`. -/
noncomputable def reading7 : SensorReading :=
  { point := { x := 1.5, y := 0.5, z := 0 }, distance := 1, occupied := true }

/-- A navigating state on `map7` with a goal and no stored path. -/
noncomputable def state7 : NavigationState :=
  { currentPose := pose7, currentMap := map7, isNavigating := true,
    currentGoal := some goal0, path := none, status := .planning,
    lastError := none }

theorem readingWrites7 : readingWrites map7 pose7 reading7 =
    [{ row := 0, col := 0, occupied := false, probability := 1/10 },
     { row := 0, col := 1, occupied := true, probability := 19/20 }] := by
  have hrobot : worldToGrid map7 pose7.x pose7.y = (0, 0) := by
    unfold worldToGrid map7 pose7
    norm_num
  have hhit : worldToGrid map7 reading7.point.x reading7.point.y = (0, 1) := by
    unfold worldToGrid map7 reading7
    norm_num
  unfold readingWrites
  rw [hrobot, hhit]
  have hocc : reading7.occupied = true := rfl
  rw [hocc]
  have hbres : bresenham 0 0 0 1 = [(0, 0), (0, 1)] := by decide
  simp only [map7, hbres]
  norm_num
  simp [List.enum_cons, List.enumFrom, CellWrite.mk.injEq]

theorem integrate7_sig : (integrateReadings map7 pose7 [reading7]).2 = true := by
  have hwrites : integrationWrites map7 pose7 [reading7] =
      [{ row := 0, col := 0, occupied := false, probability := 1/10 },
       { row := 0, col := 1, occupied := true, probability := 19/20 }] := by
    unfold integrationWrites
    simp [readingWrites7]
  unfold integrateReadings
  rw [hwrites]
  simp only [List.foldl_cons, List.foldl_nil]
  rw [show map7.height = 1 from rfl, show map7.width = 2 from rfl]
  rw [applyWrite, if_pos (by norm_num)]
  simp only [map7]
  norm_num [applyWrite]
  left
  rw [abs_of_nonneg (by norm_num : (0:ℚ) ≤ 2/5)]
  norm_num

theorem invalid7 : checkPathValidity (integrateReadings map7 pose7 [reading7]).1
    [] = false := by
  simp [checkPathValidity]

/-- C7 witness: `updateMap_replanFailed` at the concrete navigating
state `state7`, the single reading `reading7` (which flips cell (0, 0)
from probability 0.5 to 0.1, a significant change), and an empty
replanning result. -/
theorem updateMap_replanFailed_witness :
    (updateMap state7 [reading7] []).isNavigating = false ∧
    (updateMap state7 [reading7] []).path = none ∧
    (updateMap state7 [reading7] []).status = state7.status :=
  updateMap_replanFailed state7 [reading7] goal0 [] rfl rfl integrate7_sig invalid7 rfl

/-- C7 counterexample: at the concrete input (`state7` with status
`planning`, reading `reading7`, empty replan) `update_map` stops
navigation and clears the path but leaves the status at `planning`; it
is not set to `blocked` as the claim states. -/
theorem updateMap_claim_counterexample :
    (updateMap state7 [reading7] []).isNavigating = false ∧
    (updateMap state7 [reading7] []).path = none ∧
    (updateMap state7 [reading7] []).status = NavigationStatus.planning ∧
    NavigationStatus.planning ≠ NavigationStatus.blocked := by
  refine ⟨?_, ?_, ?_, by decide⟩ <;>
    simp [updateMap, state7, integrate7_sig, invalid7]

/-- Smallest distance among the sensor readings
(`Math.min(...sensorData.map(s => s.distance))`); `none` for an empty
batch, where the JavaScript `Math.min()` returns `Infinity`. -/
noncomputable def minSensorDistance : List SensorReading → Option ℝ
  | [] => none
  | r :: rs => some ((rs.map SensorReading.distance).foldl min r.distance)

/-- The speed factor `min(1.0, max(0.1, (minDistance − 0.3) / 1.0))` of
`getVelocityCommand`; with an empty batch `minDistance` is `Infinity`
and the clamp yields 1. -/
noncomputable def speedFactor (readings : List SensorReading) : ℝ :=
  match minSensorDistance readings with
  | some d => min 1 (max 0.1 ((d - 0.3) / 1.0))
  | none => 1

/-- The emergency-stop test `minDistance < 0.3` of `getVelocityCommand`
(false on an empty batch: `Infinity < 0.3`). -/
noncomputable def emergencyStop (readings : List SensorReading) : Bool :=
  match minSensorDistance readings with
  | some d => decide (d < 0.3)
  | none => false

/-- `NavigationSystem.getVelocityCommand`.  The asynchronous sensor
gathering is passed in as `readings`, and the VFH query
`vfh.findBestDirection(sensorData, targetAngle, …)` is abstracted as its
result `safeAngle`; the claimed bounds hold for every value it could
return.  Returns the `(linear, angular)` command together with the
updated state (reaching a waypoint pops it from the path). -/
noncomputable def getVelocityCommand (s : NavigationState)
    (readings : List SensorReading) (safeAngle : ℝ) : (ℝ × ℝ) × NavigationState :=
  match s.isNavigating, s.path with
  | false, _ => ((0, 0), s)
  | true, none => ((0, 0), s)
  | true, some [] => ((0, 0), s)
  | true, some (target :: rest) =>
    if emergencyStop readings then ((0, 0), s)
    else
      let dx := target.x - s.currentPose.x
      let dy := target.y - s.currentPose.y
      let distance := Real.sqrt (dx * dx + dy * dy)
      let path1 := if distance < 0.3 then rest else target :: rest
      let s1 : NavigationState := { s with path := some path1 }
      if distance < 0.3 ∧ path1.length = 0 then ((0, 0), s1)
      else
        let angleDiff := normalizeAngle (safeAngle - s.currentPose.theta)
        let angularSpeed := angleDiff * 2
        let turnFactor := Real.cos angleDiff
        let linearSpeed := min (distance * 0.5) 0.5 * speedFactor readings * turnFactor
        ((max 0 linearSpeed, min (max angularSpeed (-1)) 1), s1)

theorem speedFactor_nonneg (readings : List SensorReading) :
    0 ≤ speedFactor readings := by
  unfold speedFactor
  match minSensorDistance readings with
  | some d =>
    apply le_min (by norm_num)
    exact le_trans (by norm_num) (le_max_left _ _)
  | none => norm_num

theorem speedFactor_le_one (readings : List SensorReading) :
    speedFactor readings ≤ 1 := by
  unfold speedFactor
  match minSensorDistance readings with
  | some d => exact min_le_left _ _
  | none => norm_num

/-- Bounds of the main branch of `getVelocityCommand`: with distance
≥ 0 and speed factor in [0, 1], the linear command
`max(0, min(d·0.5, 0.5) · sf · cos(Δ))` lies in [0, 0.5] and the angular
command `clamp(Δ·2, −1, 1)` lies in [−1, 1]. -/
theorem velocity_main_bounds (d sf ad : ℝ) (hd : 0 ≤ d)
    (hsf0 : 0 ≤ sf) (hsf1 : sf ≤ 1) :
    0 ≤ max 0 (min (d * 0.5) 0.5 * sf * Real.cos ad) ∧
    max 0 (min (d * 0.5) 0.5 * sf * Real.cos ad) ≤ 0.5 ∧
    -1 ≤ min (max (ad * 2) (-1)) 1 ∧
    min (max (ad * 2) (-1)) 1 ≤ 1 := by
  have ha0 : (0:ℝ) ≤ min (d * 0.5) 0.5 := le_min (by nlinarith) (by norm_num)
  have ha1 : min (d * 0.5) 0.5 ≤ 0.5 := min_le_right _ _
  have hc1 := Real.cos_le_one ad
  have hasf0 : 0 ≤ min (d * 0.5) 0.5 * sf := mul_nonneg ha0 hsf0
  have hasf1 : min (d * 0.5) 0.5 * sf ≤ 0.5 := by nlinarith
  refine ⟨le_max_left _ _, ?_, le_min (le_max_right _ _) (by norm_num),
    min_le_right _ _⟩
  apply max_le (by norm_num)
  nlinarith [mul_le_mul_of_nonneg_left hc1 hasf0]

/-- C8: for every state, every sensor-reading batch, and every direction
the VFH can return, the command produced by `getVelocityCommand` has
angular ∈ [−1, 1] and linear ∈ [0, 0.5]; in particular linear is never
negative — reverse is never issued. -/
theorem velocityCommand_bounds (s : NavigationState)
    (readings : List SensorReading) (safeAngle : ℝ) :
    0 ≤ ((getVelocityCommand s readings safeAngle).1).1 ∧
    ((getVelocityCommand s readings safeAngle).1).1 ≤ 0.5 ∧
    -1 ≤ ((getVelocityCommand s readings safeAngle).1).2 ∧
    ((getVelocityCommand s readings safeAngle).1).2 ≤ 1 := by
  obtain ⟨cp, cm, nav, cg, pth, st, le⟩ := s
  cases nav with
  | false =>
    simp only [getVelocityCommand]
    norm_num
  | true =>
    match pth with
    | none =>
      simp only [getVelocityCommand]
      norm_num
    | some [] =>
      simp only [getVelocityCommand]
      norm_num
    | some (target :: rest) =>
      simp only [getVelocityCommand]
      split_ifs
      all_goals first
        | exact velocity_main_bounds _ _ _ (Real.sqrt_nonneg _)
            (speedFactor_nonneg readings) (speedFactor_le_one readings)
        | norm_num

/-- `PathPlanner.stepSize` (0.5 m). -/
noncomputable def stepSize : ℝ := 0.5

/-- `Math.atan2(y, x)`, via the complex argument (range (−π, π]). -/
noncomputable def atan2 (y x : ℝ) : ℝ := Complex.arg ⟨x, y⟩

/-- An RRT tree node (`RRTNode` in the planner): a position and a
parent back-pointer (`parent: RRTNode | null`); the root has none. -/
inductive RRTNode where
  | root (x y : ℝ)
  | child (x y : ℝ) (parent : RRTNode)

/-- The x coordinate of an RRT node. -/
def RRTNode.x : RRTNode → ℝ
  | .root x _ => x
  | .child x _ _ => x

/-- The y coordinate of an RRT node. -/
def RRTNode.y : RRTNode → ℝ
  | .root _ y => y
  | .child _ y _ => y

/-- Both planar coordinates of an RRT node. -/
def nodeXY (n : RRTNode) : ℝ × ℝ := (n.x, n.y)

/-- Both planar coordinates of a pose. -/
def poseXY (p : Pose) : ℝ × ℝ := (p.x, p.y)

/-- `PathPlanner.worldToGrid`: the planner's own converter, returning
grid x = column, y = row. -/
noncomputable def plannerWorldToGrid (m : OccupancyGrid) (x y : ℝ) : ℤ × ℤ :=
  (⌊(x - m.originX) / m.resolution⌋, ⌊(y - m.originY) / m.resolution⌋)

/-- The planner's inflation offsets (margin 2). -/
def margins : List ℤ := [-2, -1, 0, 1, 2]

/-- `PathPlanner.isValidNode` on grid coordinates (gx = column, gy =
row): in bounds, and no occupied or high-probability (> 0.5) cell in the
5 × 5 inflation square around the cell.  All call sites pass integer
grid coordinates, so the source's inner `Math.floor(node.y + dy)` is the
plain integer sum. -/
def isValidNode (m : OccupancyGrid) (gx gy : ℤ) : Bool :=
  if gx < 0 ∨ m.width ≤ gx ∨ gy < 0 ∨ m.height ≤ gy then false
  else
    margins.all fun dy =>
      margins.all fun dx =>
        if 0 ≤ gy + dy ∧ gy + dy < m.height ∧ 0 ≤ gx + dx ∧ gx + dx < m.width then
          !(m.cells (gy + dy) (gx + dx)).occupied &&
            decide ((m.cells (gy + dy) (gx + dx)).probability ≤ 1 / 2)
        else true

/-- `PathPlanner.isValidPath` between two planar points: sample the
segment at `⌈dist/(resolution/4)⌉ + 1` points and require every sampled
cell to pass `isValidNode`.  For `steps ≤ 0` the JavaScript sample
position is `NaN` (`0/0`), whose bounds checks all fail and the
single-iteration loop passes vacuously; the guard embeds that. -/
noncomputable def isValidPathP (m : OccupancyGrid) (a b : ℝ × ℝ) : Bool :=
  let steps : ℤ := ⌈dist2 a b / (m.resolution / 4)⌉
  if steps ≤ 0 then true
  else
    (List.range (steps.toNat + 1)).all fun i =>
      let t : ℝ := (i : ℝ) / (steps : ℝ)
      let g := plannerWorldToGrid m (a.1 + (b.1 - a.1) * t) (a.2 + (b.2 - a.2) * t)
      isValidNode m g.1 g.2

/-- `PathPlanner.extend`: if the target is within `stepSize`, the new
node is the target; otherwise step `stepSize` along the heading toward
it.  (The source's `RRTNode | null` return is never `null`.) -/
noncomputable def extend (node : RRTNode) (t : ℝ × ℝ) : RRTNode :=
  if dist2 (nodeXY node) t < stepSize then .child t.1 t.2 node
  else
    .child (node.x + stepSize * Real.cos (atan2 (t.2 - node.y) (t.1 - node.x)))
      (node.y + stepSize * Real.sin (atan2 (t.2 - node.y) (t.1 - node.x))) node

/-- `PathPlanner.findNearestNode`: linear scan from `nodes[0]`, keeping
the first node at strictly smaller distance. -/
noncomputable def findNearestNode (nodes : List RRTNode) (target : ℝ × ℝ) : RRTNode :=
  match nodes with
  | [] => .root 0 0
  | n :: _ =>
    nodes.foldl (fun nearest node =>
      if dist2 (nodeXY node) target < dist2 (nodeXY nearest) target then node
      else nearest) n

/-- The parent walk of `PathPlanner.extractPath`: prepend the (x, y, 0)
poses of the node and its ancestors, stopping before (and excluding)
the root. -/
def walkUp : RRTNode → List Pose → List Pose
  | .root _ _, acc => acc
  | .child x y p, acc => walkUp p ({ x := x, y := y, theta := 0 } :: acc)

/-- The heading pass of `PathPlanner.smoothPath`: each waypoint receives
the heading of its outgoing segment; the final waypoint keeps the
heading of its incoming segment (the source mutates the previously
pushed pose before pushing the next one). -/
noncomputable def smoothGo : Pose → List Pose → List Pose
  | prev, [] => [prev]
  | prev, cur :: rest =>
    { prev with theta := atan2 (cur.y - prev.y) (cur.x - prev.x) } ::
      smoothGo { cur with theta := atan2 (cur.y - prev.y) (cur.x - prev.x) } rest

/-- `PathPlanner.smoothPath`: paths of at most 2 poses are returned
unchanged; otherwise recompute the per-waypoint headings. -/
noncomputable def smoothPath (path : List Pose) : List Pose :=
  match path with
  | a :: b :: c :: rest => smoothGo a (b :: c :: rest)
  | p => p

/-- `PathPlanner.extractPath`: start with `[{...goal}]`, walk the parent
chain of `endNode` prepending each non-root node, prepend `{...start}`,
and smooth.  (The `nodes` array parameter of the source is unused.) -/
noncomputable def extractPath (endNode : RRTNode) (start goal : Pose) : List Pose :=
  smoothPath (start :: walkUp endNode [goal])

/-- One run of the `planPath` RRT loop.  Each iteration consumes one
sampled target point, abstracting both the goal-bias draw and
`sampleFreeSpace` (with its any-point fallback); exhausting the target
list models reaching `maxIterations` or the 2 s wall-clock timeout,
both of which return the empty path. -/
noncomputable def planLoop (m : OccupancyGrid) (start goal : Pose) :
    List (ℝ × ℝ) → List RRTNode → List Pose
  | [], _ => []
  | t :: ts, nodes =>
    let nearest := findNearestNode nodes t
    let newNode := extend nearest t
    if !isValidPathP m (nodeXY nearest) (nodeXY newNode) then
      planLoop m start goal ts nodes
    else if dist2 (nodeXY newNode) (goal.x, goal.y) < stepSize * 1.5 then
      extractPath newNode start goal
    else
      planLoop m start goal ts (nodes ++ [newNode])

/-- `PathPlanner.planPath`, with the per-iteration random target points
passed in as `targets`: reject untraversable start/goal cells, then run
the RRT loop from the root at the start position. -/
noncomputable def planPath (start goal : Pose) (m : OccupancyGrid)
    (targets : List (ℝ × ℝ)) : List Pose :=
  if !isValidNode m (plannerWorldToGrid m start.x start.y).1
       (plannerWorldToGrid m start.x start.y).2 ||
     !isValidNode m (plannerWorldToGrid m goal.x goal.y).1
       (plannerWorldToGrid m goal.x goal.y).2 then []
  else planLoop m start goal targets [RRTNode.root start.x start.y]

/-- Well-formedness of a tree node relative to the start pose: the root
sits at the start position, and every child lies within `stepSize` of
its parent along a segment that passed the sampled collision check. -/
def goodNode (m : OccupancyGrid) (start : Pose) : RRTNode → Prop
  | .root x y => x = start.x ∧ y = start.y
  | .child x y p => dist2 (nodeXY p) (x, y) ≤ stepSize ∧
      isValidPathP m (nodeXY p) (x, y) = true ∧ goodNode m start p

theorem dist2_step (x y s θ : ℝ) (hs : 0 ≤ s) :
    dist2 (x, y) (x + s * Real.cos θ, y + s * Real.sin θ) = s := by
  unfold dist2
  have h1 : (x - (x + s * Real.cos θ)) * (x - (x + s * Real.cos θ)) +
      (y - (y + s * Real.sin θ)) * (y - (y + s * Real.sin θ))
      = s ^ 2 * (Real.cos θ ^ 2 + Real.sin θ ^ 2) := by ring
  rw [h1, Real.cos_sq_add_sin_sq, mul_one, Real.sqrt_sq hs]

theorem stepSize_pos : (0 : ℝ) < stepSize := by
  unfold stepSize
  norm_num

theorem extend_dist_le (n : RRTNode) (t : ℝ × ℝ) :
    dist2 (nodeXY n) (nodeXY (extend n t)) ≤ stepSize := by
  unfold extend
  by_cases h : dist2 (nodeXY n) t < stepSize
  · rw [if_pos h]
    exact le_of_lt h
  · rw [if_neg h]
    have := dist2_step n.x n.y stepSize
      (atan2 (t.2 - n.y) (t.1 - n.x)) (le_of_lt stepSize_pos)
    simp only [nodeXY, RRTNode.x, RRTNode.y]
    exact le_of_eq this

theorem extend_good (m : OccupancyGrid) (start : Pose) (p : RRTNode) (t : ℝ × ℝ)
    (hp : goodNode m start p)
    (hv : isValidPathP m (nodeXY p) (nodeXY (extend p t)) = true) :
    goodNode m start (extend p t) := by
  have hd := extend_dist_le p t
  unfold extend at *
  by_cases h : dist2 (nodeXY p) t < stepSize
  · rw [if_pos h] at hv hd ⊢
    exact ⟨hd, hv, hp⟩
  · rw [if_neg h] at hv hd ⊢
    exact ⟨hd, hv, hp⟩

theorem foldl_nearest_mem (t : ℝ × ℝ) (S : List RRTNode) :
    ∀ (l : List RRTNode) (acc : RRTNode), acc ∈ S → (∀ x ∈ l, x ∈ S) →
      l.foldl (fun nearest node =>
        if dist2 (nodeXY node) t < dist2 (nodeXY nearest) t then node
        else nearest) acc ∈ S := by
  intro l
  induction l with
  | nil => intro acc hacc _; exact hacc
  | cons a l ih =>
    intro acc hacc hl
    rw [List.foldl_cons]
    apply ih
    · by_cases h : dist2 (nodeXY a) t < dist2 (nodeXY acc) t
      · rw [if_pos h]; exact hl a (by simp)
      · rw [if_neg h]; exact hacc
    · intro x hx
      exact hl x (by simp [hx])

theorem findNearestNode_mem (nodes : List RRTNode) (t : ℝ × ℝ) (hne : nodes ≠ []) :
    findNearestNode nodes t ∈ nodes := by
  match nodes with
  | [] => exact absurd rfl hne
  | n :: ns =>
    unfold findNearestNode
    exact foldl_nearest_mem t (n :: ns) (n :: ns) n (by simp) (fun x hx => hx)

/-- The list of (x, y, 0) poses of a node's non-root ancestor chain,
oldest first (what the `while (current?.parent)` unshift loop builds). -/
def ancPoses : RRTNode → List Pose
  | .root _ _ => []
  | .child x y p => ancPoses p ++ [{ x := x, y := y, theta := 0 }]

theorem walkUp_eq : ∀ (n : RRTNode) (acc : List Pose),
    walkUp n acc = ancPoses n ++ acc := by
  intro n
  induction n with
  | root x y => intro acc; rfl
  | child x y p ih =>
    intro acc
    rw [walkUp, ih, ancPoses, List.append_assoc]
    rfl

theorem smoothGo_xy : ∀ (l : List Pose) (prev : Pose),
    (smoothGo prev l).map poseXY = poseXY prev :: l.map poseXY := by
  intro l
  induction l with
  | nil => intro prev; rfl
  | cons cur rest ih =>
    intro prev
    rw [smoothGo, List.map_cons, ih, List.map_cons]
    rfl

theorem smoothPath_xy (l : List Pose) :
    (smoothPath l).map poseXY = l.map poseXY := by
  match l with
  | [] => rfl
  | [a] => rfl
  | [a, b] => rfl
  | a :: b :: c :: rest =>
    rw [show smoothPath (a :: b :: c :: rest) = smoothGo a (b :: c :: rest) from rfl,
      smoothGo_xy]
    rfl

theorem anc_chain (m : OccupancyGrid) (start : Pose) :
    ∀ n : RRTNode, goodNode m start n →
      ((start :: ancPoses n).map poseXY).getLast? = some (nodeXY n) ∧
      List.Chain' (fun a b => dist2 a b ≤ stepSize ∧ isValidPathP m a b = true)
        ((start :: ancPoses n).map poseXY) := by
  intro n
  induction n with
  | root x y =>
    intro hg
    constructor
    · simp [ancPoses, nodeXY, RRTNode.x, RRTNode.y, poseXY, hg.1, hg.2]
    · simp [ancPoses]
  | child x y p ih =>
    intro hg
    obtain ⟨hd, hv, hgp⟩ := hg
    obtain ⟨ihlast, ihchain⟩ := ih hgp
    have hsplit : (start :: ancPoses (.child x y p)).map poseXY
        = ((start :: ancPoses p).map poseXY) ++ [(x, y)] := by
      rw [ancPoses,
        show start :: (ancPoses p ++ [{ x := x, y := y, theta := 0 }])
          = (start :: ancPoses p) ++ [{ x := x, y := y, theta := 0 }] from rfl,
        List.map_append]
      rfl
    constructor
    · rw [hsplit, List.getLast?_concat]
      rfl
    · rw [hsplit]
      apply List.chain'_append.mpr
      refine ⟨ihchain, by simp, ?_⟩
      intro a ha b hb
      rw [ihlast] at ha
      have ha' : a = nodeXY p := by
        have := ha
        simp at this
        exact this.symm
      have hb' : b = (x, y) := by
        have := hb
        simp at this
        exact this.symm
      rw [ha', hb']
      exact ⟨hd, hv⟩

theorem extractPath_spec (m : OccupancyGrid) (start goal : Pose) (n : RRTNode)
    (hn : goodNode m start n)
    (hnear : dist2 (nodeXY n) (goal.x, goal.y) < stepSize * 1.5) :
    ((extractPath n start goal).map poseXY).head? = some (start.x, start.y) ∧
    ((extractPath n start goal).map poseXY).getLast? = some (goal.x, goal.y) ∧
    List.Chain' (fun a b => dist2 a b ≤ stepSize * 1.5)
      ((extractPath n start goal).map poseXY) ∧
    List.Chain' (fun a b => isValidPathP m a b = true)
      (((extractPath n start goal).map poseXY).dropLast) := by
  obtain ⟨hlast, hchain⟩ := anc_chain m start n hn
  have hxy : (extractPath n start goal).map poseXY
      = ((start :: ancPoses n).map poseXY) ++ [(goal.x, goal.y)] := by
    unfold extractPath
    rw [smoothPath_xy, walkUp_eq,
      show start :: (ancPoses n ++ [goal]) = (start :: ancPoses n) ++ [goal] from rfl,
      List.map_append]
    rfl
  refine ⟨?_, ?_, ?_, ?_⟩
  · rw [hxy]
    simp [poseXY]
  · rw [hxy, List.getLast?_concat]
  · rw [hxy]
    apply List.chain'_append.mpr
    refine ⟨hchain.imp ?_, by simp, ?_⟩
    · intro a b hab
      have h15 : stepSize ≤ stepSize * 1.5 := by
        unfold stepSize
        norm_num
      exact le_trans hab.1 h15
    · intro a ha b hb
      rw [hlast] at ha
      have ha' : a = nodeXY n := by
        have := ha
        simp at this
        exact this.symm
      have hb' : b = (goal.x, goal.y) := by
        have := hb
        simp at this
        exact this.symm
      rw [ha', hb']
      exact le_of_lt hnear
  · rw [hxy, List.dropLast_concat]
    exact hchain.imp fun a b hab => hab.2

theorem planLoop_spec (m : OccupancyGrid) (start goal : Pose) :
    ∀ (ts : List (ℝ × ℝ)) (nodes : List RRTNode), nodes ≠ [] →
      (∀ n ∈ nodes, goodNode m start n) →
      planLoop m start goal ts nodes = [] ∨
      ∃ e : RRTNode, goodNode m start e ∧
        dist2 (nodeXY e) (goal.x, goal.y) < stepSize * 1.5 ∧
        planLoop m start goal ts nodes = extractPath e start goal := by
  intro ts
  induction ts with
  | nil =>
    intro nodes _ _
    left
    rfl
  | cons t ts ih =>
    intro nodes hne hgood
    rw [planLoop]
    by_cases hv : isValidPathP m (nodeXY (findNearestNode nodes t))
        (nodeXY (extend (findNearestNode nodes t) t)) = true
    · have hgn : goodNode m start (extend (findNearestNode nodes t) t) :=
        extend_good m start _ t (hgood _ (findNearestNode_mem nodes t hne)) hv
      simp only [hv, Bool.not_true, Bool.false_eq_true, if_false]
      by_cases hnear : dist2 (nodeXY (extend (findNearestNode nodes t) t))
          (goal.x, goal.y) < stepSize * 1.5
      · right
        refine ⟨_, hgn, hnear, ?_⟩
        rw [if_pos hnear]
      · rw [if_neg hnear]
        apply ih
        · simp
        · intro n hn
          rcases List.mem_append.mp hn with h | h
          · exact hgood n h
          · rw [List.mem_singleton.mp h]
            exact hgn
    · have hv' : isValidPathP m (nodeXY (findNearestNode nodes t))
          (nodeXY (extend (findNearestNode nodes t) t)) = false :=
        Bool.eq_false_iff.mpr hv
      simp only [hv', Bool.not_false, if_true]
      exact ih nodes hne hgood

/-- C2 (amended): every path returned by `plan` is either empty or
satisfies: its first pose equals `start` in (x, y); its last pose equals
`goal` in (x, y); every pair of consecutive poses is at most
1.5·step_size = 0.75 m apart; and every sampled point of every segment
EXCEPT the final segment to the goal lies on an inflated-traversable
cell (the segments between tree nodes all passed `isValidPath`).  The
final segment — from the last tree node to the goal — is never
collision-checked by the source (only the goal's own cell is checked
once, before the loop), so its sampled points carry no traversability
guarantee; see `planPath_claim_counterexample`. -/
theorem planPath_spec (start goal : Pose) (m : OccupancyGrid)
    (targets : List (ℝ × ℝ)) :
    planPath start goal m targets = [] ∨
    (((planPath start goal m targets).map poseXY).head? = some (start.x, start.y) ∧
     ((planPath start goal m targets).map poseXY).getLast? = some (goal.x, goal.y) ∧
     List.Chain' (fun a b => dist2 a b ≤ stepSize * 1.5)
       ((planPath start goal m targets).map poseXY) ∧
     List.Chain' (fun a b => isValidPathP m a b = true)
       (((planPath start goal m targets).map poseXY).dropLast)) := by
  unfold planPath
  by_cases hok : (!isValidNode m (plannerWorldToGrid m start.x start.y).1
       (plannerWorldToGrid m start.x start.y).2 ||
     !isValidNode m (plannerWorldToGrid m goal.x goal.y).1
       (plannerWorldToGrid m goal.x goal.y).2) = true
  · rw [if_pos hok]
    left
    rfl
  · rw [if_neg hok]
    have hroot : goodNode m start (RRTNode.root start.x start.y) := ⟨rfl, rfl⟩
    rcases planLoop_spec m start goal targets [RRTNode.root start.x start.y]
        (by simp) (by
          intro n hn
          rw [List.mem_singleton.mp hn]
          exact hroot) with h | ⟨e, hge, hnear, heq⟩
    · left
      exact h
    · right
      rw [heq]
      exact extractPath_spec m start goal e hge hnear

/-- The C2 counterexample map: a single row of 14 cells at resolution
0.1 m with origin (0, 0); every cell unknown except an occupied cell at
(row 0, col 4). -/
noncomputable def map2 : OccupancyGrid :=
  { cells := fun r c =>
      if r = 0 ∧ c = 4 then { occupied := true, probability := 19/20 }
      else { occupied := false, probability := 1/2 },
    resolution := 0.1, width := 14, height := 1, originX := 0, originY := 0 }

/-- Planner start for the counterexample: cell (0, 0). -/
noncomputable def start2 : Pose := { x := 0.05, y := 0.05, theta := 0 }

/-- Planner goal for the counterexample: cell (0, 7), whose own 5 × 5
inflation square misses the obstacle at column 4. -/
noncomputable def goal2 : Pose := { x := 0.75, y := 0.05, theta := 0 }

theorem validNode_00 : isValidNode map2 0 0 = true := by
  unfold isValidNode margins
  rw [if_neg (by norm_num [map2])]
  rw [List.all_eq_true]
  intro dy hdy
  rw [List.all_eq_true]
  intro dx hdx
  fin_cases hdy <;> fin_cases hdx <;> norm_num [map2, decide_eq_true_eq]

theorem validNode_10 : isValidNode map2 1 0 = true := by
  unfold isValidNode margins
  rw [if_neg (by norm_num [map2])]
  rw [List.all_eq_true]
  intro dy hdy
  rw [List.all_eq_true]
  intro dx hdx
  fin_cases hdy <;> fin_cases hdx <;> norm_num [map2, decide_eq_true_eq]

theorem validNode_70 : isValidNode map2 7 0 = true := by
  unfold isValidNode margins
  rw [if_neg (by norm_num [map2])]
  rw [List.all_eq_true]
  intro dy hdy
  rw [List.all_eq_true]
  intro dx hdx
  fin_cases hdy <;> fin_cases hdx <;> norm_num [map2, decide_eq_true_eq]

theorem validNode_40 : isValidNode map2 4 0 = false := by
  unfold isValidNode
  rw [if_neg (by norm_num [map2])]
  apply Bool.eq_false_iff.mpr
  intro hall
  have h0 := List.all_eq_true.mp hall 0 (by simp [margins])
  have h00 := List.all_eq_true.mp h0 0 (by simp [margins])
  norm_num [map2, decide_eq_true_eq] at h00

theorem dist2_eval1 : dist2 ((0.05 : ℝ), (0.05 : ℝ)) (0.15, 0.05) = 0.1 := by
  show Real.sqrt (((0.05 : ℝ) - 0.15) * ((0.05 : ℝ) - 0.15) +
      ((0.05 : ℝ) - 0.05) * ((0.05 : ℝ) - 0.05)) = 0.1
  rw [show ((0.05 : ℝ) - 0.15) * ((0.05 : ℝ) - 0.15) +
      ((0.05 : ℝ) - 0.05) * ((0.05 : ℝ) - 0.05) = (0.1 : ℝ) ^ 2 by norm_num]
  exact Real.sqrt_sq (by norm_num)

theorem dist2_eval2 : dist2 ((0.15 : ℝ), (0.05 : ℝ)) (0.75, 0.05) = 0.6 := by
  show Real.sqrt (((0.15 : ℝ) - 0.75) * ((0.15 : ℝ) - 0.75) +
      ((0.05 : ℝ) - 0.05) * ((0.05 : ℝ) - 0.05)) = 0.6
  rw [show ((0.15 : ℝ) - 0.75) * ((0.15 : ℝ) - 0.75) +
      ((0.05 : ℝ) - 0.05) * ((0.05 : ℝ) - 0.05) = (0.6 : ℝ) ^ 2 by norm_num]
  exact Real.sqrt_sq (by norm_num)

theorem seg1_valid : isValidPathP map2 ((0.05 : ℝ), (0.05 : ℝ)) (0.15, 0.05) = true := by
  simp only [isValidPathP]
  rw [dist2_eval1, show map2.resolution = (0.1 : ℝ) from rfl]
  rw [show (⌈(0.1 : ℝ) / (0.1 / 4)⌉ : ℤ) = 4 from by norm_num]
  rw [if_neg (by norm_num)]
  rw [List.all_eq_true]
  intro i hi
  rw [List.mem_range] at hi
  have hi' : i < 5 := by simpa using hi
  clear hi
  interval_cases i <;>
    (norm_num [plannerWorldToGrid, map2]
     first
       | exact validNode_00
       | exact validNode_10)

theorem seg2_invalid : isValidPathP map2 ((0.15 : ℝ), (0.05 : ℝ)) (0.75, 0.05) = false := by
  simp only [isValidPathP]
  rw [dist2_eval2, show map2.resolution = (0.1 : ℝ) from rfl]
  rw [show (⌈(0.6 : ℝ) / (0.1 / 4)⌉ : ℤ) = 24 from by norm_num]
  rw [if_neg (by norm_num)]
  apply Bool.eq_false_iff.mpr
  intro hall
  have h12 := List.all_eq_true.mp hall 12 (by simp)
  simp only [plannerWorldToGrid] at h12
  rw [show map2.originX = (0 : ℝ) from rfl, show map2.originY = (0 : ℝ) from rfl,
    show map2.resolution = (0.1 : ℝ) from rfl] at h12
  norm_num at h12
  rw [validNode_40] at h12
  exact Bool.false_ne_true h12

theorem planPath2_eval : planPath start2 goal2 map2 [((0.15 : ℝ), (0.05 : ℝ))]
    = extractPath (RRTNode.child 0.15 0.05 (RRTNode.root 0.05 0.05)) start2 goal2 := by
  have h1 : plannerWorldToGrid map2 start2.x start2.y = (0, 0) := by
    norm_num [plannerWorldToGrid, map2, start2, Prod.ext_iff]
  have h2 : plannerWorldToGrid map2 goal2.x goal2.y = (7, 0) := by
    norm_num [plannerWorldToGrid, map2, goal2, Prod.ext_iff]
  have hlt : dist2 (nodeXY (RRTNode.root 0.05 0.05)) ((0.15 : ℝ), (0.05 : ℝ)) < stepSize := by
    rw [show nodeXY (RRTNode.root 0.05 0.05) = ((0.05 : ℝ), (0.05 : ℝ)) from rfl,
      dist2_eval1]
    unfold stepSize
    norm_num
  have hnn : findNearestNode [RRTNode.root 0.05 0.05] ((0.15 : ℝ), (0.05 : ℝ))
      = RRTNode.root 0.05 0.05 := by
    unfold findNearestNode
    dsimp only
    rw [List.foldl_cons, List.foldl_nil, if_neg (lt_irrefl _)]
  have hext : extend (RRTNode.root 0.05 0.05) ((0.15 : ℝ), (0.05 : ℝ))
      = RRTNode.child 0.15 0.05 (RRTNode.root 0.05 0.05) := by
    unfold extend
    rw [if_pos hlt]
  have hnear : dist2 (nodeXY (RRTNode.child 0.15 0.05 (RRTNode.root 0.05 0.05)))
      (goal2.x, goal2.y) < stepSize * 1.5 := by
    rw [show nodeXY (RRTNode.child 0.15 0.05 (RRTNode.root 0.05 0.05))
        = ((0.15 : ℝ), (0.05 : ℝ)) from rfl,
      show goal2.x = (0.75 : ℝ) from rfl, show goal2.y = (0.05 : ℝ) from rfl,
      dist2_eval2]
    unfold stepSize
    norm_num
  unfold planPath
  rw [h1, h2]
  dsimp only
  rw [validNode_00, validNode_70]
  rw [if_neg (by simp)]
  rw [show start2.x = (0.05 : ℝ) from rfl, show start2.y = (0.05 : ℝ) from rfl]
  rw [planLoop, hnn, hext]
  rw [show nodeXY (RRTNode.root 0.05 0.05) = ((0.05 : ℝ), (0.05 : ℝ)) from rfl,
    show nodeXY (RRTNode.child 0.15 0.05 (RRTNode.root 0.05 0.05))
      = ((0.15 : ℝ), (0.05 : ℝ)) from rfl]
  rw [seg1_valid]
  simp only [Bool.not_true, Bool.false_eq_true, if_false]
  rw [if_pos]
  exact hnear

/-- C2 counterexample: with the sampled target (0.15, 0.05) on `map2`,
the planner returns the path (0.05, 0.05) → (0.15, 0.05) → (0.75, 0.05).
Its final segment, from the last tree node (0.15, 0.05) to the goal
(0.75, 0.05), crosses the inflated occupied cell (0, 4) — the sample at
its midpoint (0.45, 0.05) fails the inflated-traversability check — so
the returned path violates the claim's requirement on the final
segment. -/
theorem planPath_claim_counterexample :
    (planPath start2 goal2 map2 [((0.15 : ℝ), (0.05 : ℝ))]).map poseXY
      = [((0.05 : ℝ), (0.05 : ℝ)), (0.15, 0.05), (0.75, 0.05)] ∧
    isValidPathP map2 ((0.15 : ℝ), (0.05 : ℝ)) (0.75, 0.05) = false := by
  constructor
  · rw [planPath2_eval]
    unfold extractPath
    rw [smoothPath_xy, walkUp_eq]
    simp [ancPoses, start2, goal2, poseXY]
  · exact seg2_invalid

/-- C9: for every in-bounds grid cell (r, c) of the occupancy grid
(0 ≤ r < height, 0 ≤ c < width), converting the cell to world coordinates
with `gridToWorld` and back with `worldToGrid` returns exactly (r, c).
(Holds for any grid with positive resolution, hence for the system's
default 600 × 600 grid.) -/
theorem grid_world_roundtrip (m : OccupancyGrid) (r c : ℤ)
    (hres : 0 < m.resolution)
    (hr0 : 0 ≤ r) (hr1 : r < m.height) (hc0 : 0 ≤ c) (hc1 : c < m.width) :
    worldToGrid m (gridToWorld m r c).1 (gridToWorld m r c).2 = (r, c) := by
  unfold worldToGrid gridToWorld
  have hne : m.resolution ≠ 0 := ne_of_gt hres
  simp only [add_sub_cancel_right]
  rw [mul_div_assoc, div_self hne, mul_one, mul_div_assoc, div_self hne, mul_one]
  simp

/-- C9 witness: the round-trip identity instantiated on the system's
default map at cell (3, 7). -/
theorem grid_world_roundtrip_witness :
    worldToGrid defaultMap (gridToWorld defaultMap 3 7).1 (gridToWorld defaultMap 3 7).2
      = (3, 7) :=
  grid_world_roundtrip defaultMap 3 7 (by norm_num [defaultMap])
    (by norm_num) (by norm_num [defaultMap]) (by norm_num) (by norm_num [defaultMap])

end RobotSim
